import Mathlib

/-!
Shallow embedding of the WLED auto-brightness usermod
(`usermods/usermod_v2_auto_brightness/usermod_v2_auto_brightness.h`).

Modelling conventions:
* C `float` values (lux readings, the EMA state) are modelled as real
  numbers (`ℝ`); the idealisation ignores floating-point rounding.
* C `int` is modelled as `ℤ`; C integer division truncates toward zero,
  modelled by `Int.tdiv`.
* A C cast of an `int` to `byte` (`uint8_t`) reduces the value modulo 256
  (`byteOfInt`); a C cast of a non-negative `float` to an integer type
  truncates toward zero, modelled by `Nat.floor`.
* `unsigned long` timestamps wrap modulo 2^32, so the elapsed-time
  subtraction `now - last` is modelled by `wrapSub`.
* Debug logging (`DEBUG_PRINTLN`/`DEBUG_PRINTF` and the static
  `debugLogCounter` that only throttles log lines) and the external
  `applyBri()` render call are side effects without controller state and
  are not modelled.
-/

/-- C cast of an `int` to `byte` (`uint8_t`): reduction modulo 256. -/
def byteOfInt (i : ℤ) : ℕ := (i % 256).toNat

/-- Persistent configuration fields of `AutoBrightnessUsermod`
(header lines 9-13). -/
structure Config where
  enabled : Bool
  minPercent : ℤ
  maxPercent : ℤ
  minLux : ℤ
  maxLux : ℤ
deriving DecidableEq

/-- The default configuration (field initialisers, header lines 9-13). -/
def defaultConfig : Config :=
  { enabled := false, minPercent := 10, maxPercent := 100, minLux := 5, maxLux := 500 }

/-- `minBri` as computed at the start of `luxToBrightness` (lines 32-33):
`(byte)((autoBriMinPercent * 255) / 100)`, then raised to at least 1. -/
def minByte (cfg : Config) : ℕ :=
  let minBri := byteOfInt (Int.tdiv (cfg.minPercent * 255) 100)
  if minBri < 1 then 1 else minBri

/-- `maxBri` as computed in `luxToBrightness` (lines 34-35), kept as the
C `int` it is in the source: `(autoBriMaxPercent * 255) / 100`, raised to
at least `minBri`. -/
def maxBriInt (cfg : Config) : ℤ :=
  let maxBri := Int.tdiv (cfg.maxPercent * 255) 100
  if maxBri < (minByte cfg : ℤ) then (minByte cfg : ℤ) else maxBri

/-- The byte actually returned on the `lux >= fMaxLux` branch (line 44):
`(byte)maxBri`. -/
def maxByte (cfg : Config) : ℕ := byteOfInt (maxBriInt cfg)

/-- `fMaxLux` after the degenerate-span guard (lines 37-39): if
`fMaxLux <= fMinLux` it becomes `fMinLux + 1`. -/
noncomputable def hiLux (cfg : Config) : ℝ :=
  if (cfg.maxLux : ℝ) ≤ (cfg.minLux : ℝ) then (cfg.minLux : ℝ) + 1 else (cfg.maxLux : ℝ)

/-- `luxToBrightness` (lines 31-52): clamp below `fMinLux` to `minBri`,
above `fMaxLux` to `(byte)maxBri`, otherwise apply the square-root curve
`minBri + (byte)(sqrtf(normalized) * (maxBri - minBri))`. -/
noncomputable def luxToBrightness (cfg : Config) (lux : ℝ) : ℕ :=
  if lux ≤ (cfg.minLux : ℝ) then minByte cfg
  else if hiLux cfg ≤ lux then maxByte cfg
  else byteOfInt ((minByte cfg : ℤ) +
    (⌊Real.sqrt ((lux - (cfg.minLux : ℝ)) / (hiLux cfg - (cfg.minLux : ℝ))) *
      ((maxBriInt cfg : ℝ) - (minByte cfg : ℝ))⌋₊ : ℤ))

/-- `stepBrightness` (lines 55-70) as a pure function on the current and
target brightness bytes: tiered step toward the target, clamped at the
target by the direction-aware `min`/`max`. -/
def stepBrightness (current target : ℕ) : ℕ :=
  if current = target then current
  else
    let diff : ℤ := (target : ℤ) - (current : ℤ)
    let absDiff : ℤ := |diff|
    let step : ℤ := if 50 < absDiff then 4 else if 20 < absDiff then 2 else 1
    if 0 < diff then byteOfInt (min ((current : ℤ) + step) (target : ℤ))
    else byteOfInt (max ((current : ℤ) - step) (target : ℤ))

/-- `SENSOR_READ_INTERVAL` (line 25). -/
def SENSOR_READ_INTERVAL : ℕ := 500

/-- `BRI_STEP_INTERVAL` (line 26). -/
def BRI_STEP_INTERVAL : ℕ := 30

/-- `UI_SYNC_INTERVAL` (line 27). -/
def UI_SYNC_INTERVAL : ℕ := 2000

/-- `EMA_ALPHA` (line 28). -/
noncomputable def EMA_ALPHA : ℝ := 0.35

/-- `unsigned long` subtraction `now - last`, wrapping modulo 2^32. -/
def wrapSub (a b : ℕ) : ℕ := (a % 2 ^ 32 + (2 ^ 32 - b % 2 ^ 32)) % 2 ^ 32

/-- Mutable controller state touched by `loop` (header lines 17-23 plus the
externally owned brightness sink `bri`/`briOld`/`briT`/`briLast` and the
UI-notification signal `interfaceUpdateCallMode = CALL_MODE_NO_NOTIFY`,
modelled as the flag `uiNotify`). -/
structure LoopState where
  lastLux : ℝ
  smoothedLux : ℝ
  autoBriTarget : ℕ
  autoBriCurrent : ℕ
  lastSensorRead : ℕ
  lastBriUpdate : ℕ
  lastUiSync : ℕ
  bri : ℕ
  briOld : ℕ
  briT : ℕ
  briLast : ℕ
  uiNotify : Bool

/-- Per-tick external inputs of `loop`: `millis()`, `strip.isUpdating()`,
the global `transitionActive` flag and the value
`lightMeter.readLightLevel()` would return. -/
structure TickInput where
  now : ℕ
  isUpdating : Bool
  transitionActive : Bool
  lux : ℝ

/-- Body of the sensor-read block (lines 91-113), given that its guard
fired: store the read timestamp, and on a valid (`lux >= 0`) reading
update `lastLux`, the EMA (first reading seeds it and resyncs
`autoBriCurrent` to `bri`), and apply the deadband to the new target. -/
noncomputable def sampleStep (cfg : Config) (now : ℕ) (lux : ℝ) (s : LoopState) : LoopState :=
  let s₀ := { s with lastSensorRead := now }
  if 0 ≤ lux then
    let s₁ := { s₀ with lastLux := lux }
    let s₂ :=
      if s₁.smoothedLux < 0 then
        { s₁ with smoothedLux := lux, autoBriCurrent := s₁.bri }
      else
        { s₁ with smoothedLux := EMA_ALPHA * lux + (1 - EMA_ALPHA) * s₁.smoothedLux }
    let newTarget := luxToBrightness cfg s₂.smoothedLux
    if 3 < |(newTarget : ℤ) - (s₂.autoBriTarget : ℤ)| then
      { s₂ with autoBriTarget := newTarget }
    else s₂
  else s₀

/-- Body of the step-toward-target block (lines 118-133), given that its
guard fired: advance one `stepBrightness` step and, if the current value
changed, push it to the brightness sink and maybe signal the UI. -/
def briStepPhase (now : ℕ) (s : LoopState) : LoopState :=
  let s₀ := { s with lastBriUpdate := now }
  let prev := s₀.autoBriCurrent
  let s₁ := { s₀ with autoBriCurrent := stepBrightness s₀.autoBriCurrent s₀.autoBriTarget }
  if s₁.autoBriCurrent ≠ prev then
    let s₂ := { s₁ with bri := s₁.autoBriCurrent }
    let s₃ := { s₂ with briOld := s₂.bri, briT := s₂.bri }
    let s₄ := if 0 < s₃.bri then { s₃ with briLast := s₃.bri } else s₃
    if UI_SYNC_INTERVAL ≤ wrapSub now s₄.lastUiSync then
      { s₄ with lastUiSync := now, uiNotify := true }
    else s₄
  else s₁

/-- One invocation of `loop` (lines 84-135): bail out while the strip is
updating, otherwise run the guarded sensor-read block and then the guarded
step block. -/
noncomputable def loop (cfg : Config) (sensorFound : Bool) (inp : TickInput)
    (s : LoopState) : LoopState :=
  if inp.isUpdating then s
  else
    let s₁ :=
      if cfg.enabled ∧ sensorFound ∧ SENSOR_READ_INTERVAL ≤ wrapSub inp.now s.lastSensorRead
      then sampleStep cfg inp.now inp.lux s
      else s
    if cfg.enabled ∧ sensorFound ∧ ¬inp.transitionActive ∧
        BRI_STEP_INTERVAL ≤ wrapSub inp.now s₁.lastBriUpdate
    then briStepPhase inp.now s₁
    else s₁

/-- Result of parsing the `Auto-Helligkeit` JSON section: `present` is
whether the section object exists, and each field is `some v` exactly when
`getJsonValue` succeeds for it (in which case it assigns `v`, otherwise it
leaves the destination unchanged). -/
structure RawConfig where
  present : Bool
  aktiv : Option Bool
  minPct : Option ℤ
  maxPct : Option ℤ
  minLuxV : Option ℤ
  maxLuxV : Option ℤ

/-- `readFromConfig` (lines 179-206): read each field best-effort, clamp
all ranges, reset `smoothedLux` to the sentinel when disabled, and return
the completeness flag together with the new configuration and smoothing
state. -/
def readFromConfig (raw : RawConfig) (cfg : Config) (smoothed : ℝ) :
    Config × ℝ × Bool :=
  let configComplete := raw.present
  let enabled := raw.aktiv.getD cfg.enabled
  let configComplete := configComplete && raw.aktiv.isSome
  let minP := raw.minPct.getD cfg.minPercent
  let configComplete := configComplete && raw.minPct.isSome
  let maxP := raw.maxPct.getD cfg.maxPercent
  let configComplete := configComplete && raw.maxPct.isSome
  let mnL := raw.minLuxV.getD cfg.minLux
  let configComplete := configComplete && raw.minLuxV.isSome
  let mxL := raw.maxLuxV.getD cfg.maxLux
  let configComplete := configComplete && raw.maxLuxV.isSome
  let minP := if minP < 0 then 0 else minP
  let minP := if 100 < minP then 100 else minP
  let maxP := if maxP < 1 then 1 else maxP
  let maxP := if 100 < maxP then 100 else maxP
  let maxP := if maxP < minP then minP else maxP
  let mnL := if mnL < 0 then 0 else mnL
  let mnL := if 65535 < mnL then 65535 else mnL
  let mxL := if mxL < 1 then 1 else mxL
  let mxL := if 65535 < mxL then 65535 else mxL
  let smoothed := if enabled then smoothed else -1
  (⟨enabled, minP, maxP, mnL, mxL⟩, smoothed, configComplete)

/-- The invariant `readFromConfig` establishes on the configuration fields
(the ranges of §3 of the spec, without the unenforced `minLux < maxLux`). -/
def ConfigValid (cfg : Config) : Prop :=
  0 ≤ cfg.minPercent ∧ cfg.minPercent ≤ 100 ∧
  1 ≤ cfg.maxPercent ∧ cfg.maxPercent ≤ 100 ∧ cfg.minPercent ≤ cfg.maxPercent ∧
  0 ≤ cfg.minLux ∧ cfg.minLux ≤ 65535 ∧ 1 ≤ cfg.maxLux ∧ cfg.maxLux ≤ 65535

instance (cfg : Config) : Decidable (ConfigValid cfg) := by
  unfold ConfigValid; infer_instance

lemma byteOfInt_cast {i : ℤ} (h0 : 0 ≤ i) (h : i < 256) : (byteOfInt i : ℤ) = i := by
  unfold byteOfInt
  rw [Int.emod_eq_of_lt h0 h, Int.toNat_of_nonneg h0]

lemma byteOfInt_le (i : ℤ) : byteOfInt i ≤ 255 := by
  unfold byteOfInt
  have h1 : i % 256 < 256 := Int.emod_lt_of_pos i (by norm_num)
  omega

lemma stepBrightness_self (t : ℕ) : stepBrightness t t = t := by
  unfold stepBrightness; simp

lemma stepBrightness_lt {c t : ℕ} (h : c < t) (ht : t ≤ 255) :
    c < stepBrightness c t ∧ stepBrightness c t ≤ t := by
  unfold stepBrightness
  rw [if_neg (Nat.ne_of_lt h)]
  have hd : (0 : ℤ) < (t : ℤ) - (c : ℤ) := by omega
  simp only [hd, if_pos]
  set step : ℤ := if 50 < |(t : ℤ) - (c : ℤ)| then 4 else if 20 < |(t : ℤ) - (c : ℤ)| then 2 else 1 with hstep
  have hstep1 : 1 ≤ step := by rw [hstep]; split_ifs <;> norm_num
  have h0 : (0 : ℤ) ≤ min ((c : ℤ) + step) (t : ℤ) := by
    apply le_min <;> omega
  have h256 : min ((c : ℤ) + step) (t : ℤ) < 256 := by
    have := min_le_right ((c : ℤ) + step) (t : ℤ); omega
  have hcast := byteOfInt_cast h0 h256
  have hlow : (c : ℤ) < min ((c : ℤ) + step) (t : ℤ) := by
    apply lt_min <;> omega
  have hhigh := min_le_right ((c : ℤ) + step) (t : ℤ)
  constructor <;> omega

lemma stepBrightness_gt {c t : ℕ} (h : t < c) (hc : c ≤ 255) :
    t ≤ stepBrightness c t ∧ stepBrightness c t < c := by
  unfold stepBrightness
  rw [if_neg (Nat.ne_of_gt h)]
  have hd : ¬ ((0 : ℤ) < (t : ℤ) - (c : ℤ)) := by omega
  simp only [hd, if_false]
  set step : ℤ := if 50 < |(t : ℤ) - (c : ℤ)| then 4 else if 20 < |(t : ℤ) - (c : ℤ)| then 2 else 1 with hstep
  have hstep1 : 1 ≤ step := by rw [hstep]; split_ifs <;> norm_num
  have h0 : (0 : ℤ) ≤ max ((c : ℤ) - step) (t : ℤ) := by
    have := le_max_right ((c : ℤ) - step) (t : ℤ); omega
  have h256 : max ((c : ℤ) - step) (t : ℤ) < 256 := by
    apply max_lt <;> omega
  have hcast := byteOfInt_cast h0 h256
  have hlow := le_max_right ((c : ℤ) - step) (t : ℤ)
  have hhigh : max ((c : ℤ) - step) (t : ℤ) < (c : ℤ) := by
    apply max_lt <;> omega
  constructor <;> omega

lemma stepBrightness_le_255 {c t : ℕ} (hc : c ≤ 255) (ht : t ≤ 255) :
    stepBrightness c t ≤ 255 := by
  rcases Nat.lt_trichotomy c t with h | h | h
  · exact le_trans (stepBrightness_lt h ht).2 ht
  · rw [h, stepBrightness_self]; exact ht
  · exact le_of_lt (lt_of_lt_of_le (stepBrightness_gt h hc).2 hc)

lemma stepBrightness_dist {c t : ℕ} (hc : c ≤ 255) (ht : t ≤ 255) (hne : c ≠ t) :
    ((t : ℤ) - stepBrightness c t).natAbs < ((t : ℤ) - c).natAbs := by
  rcases Nat.lt_trichotomy c t with h | h | h
  · have := stepBrightness_lt h ht; omega
  · exact absurd h hne
  · have := stepBrightness_gt h hc; omega

lemma stepBrightness_reaches_aux (t : ℕ) (ht : t ≤ 255) :
    ∀ (d c : ℕ), ((t : ℤ) - c).natAbs ≤ d → c ≤ 255 →
      ∃ n, (fun x => stepBrightness x t)^[n] c = t := by
  intro d
  induction d with
  | zero =>
    intro c hle _
    refine ⟨0, ?_⟩
    simp only [Function.iterate_zero, id]
    omega
  | succ d ih =>
    intro c hle hc
    by_cases hct : c = t
    · exact ⟨0, by simpa using hct⟩
    · have hlt := stepBrightness_dist hc ht hct
      have hle255 := stepBrightness_le_255 hc ht
      obtain ⟨n, hn⟩ := ih (stepBrightness c t) (by omega) hle255
      exact ⟨n + 1, by rwa [Function.iterate_succ_apply]⟩

lemma stepBrightness_invariant (c t : ℕ) (hc : c ≤ 255) (ht : t ≤ 255) :
    ∀ n, min c t ≤ (fun x => stepBrightness x t)^[n] c ∧
      (fun x => stepBrightness x t)^[n] c ≤ max c t := by
  intro n
  induction n with
  | zero => simp
  | succ n ih =>
    rw [Function.iterate_succ_apply']
    set x := (fun x => stepBrightness x t)^[n] c with hx
    rcases Nat.lt_trichotomy x t with h | h | h
    · have hs := stepBrightness_lt h ht
      constructor
      · exact le_trans ih.1 (le_of_lt hs.1)
      · exact le_trans hs.2 (le_max_right c t)
    · rw [h, stepBrightness_self]
      exact ⟨min_le_right c t, le_max_right c t⟩
    · have hx255 : x ≤ 255 := le_trans ih.2 (max_le hc ht)
      have hs := stepBrightness_gt h hx255
      constructor
      · exact le_trans (min_le_right c t) hs.1
      · exact le_trans (le_of_lt hs.2) ih.2

/-- C2: for any pair of brightness bytes, iterating `stepBrightness` toward
a fixed target reaches the target after finitely many calls, and every
intermediate value stays inside the closed interval spanned by the initial
current value and the target, so no call ever moves past the target. -/
theorem stepBrightness_reaches_no_overshoot (c t : ℕ) (hc : c ≤ 255) (ht : t ≤ 255) :
    (∃ n, (fun x => stepBrightness x t)^[n] c = t) ∧
    (∀ n, min c t ≤ (fun x => stepBrightness x t)^[n] c ∧
      (fun x => stepBrightness x t)^[n] c ≤ max c t) :=
  ⟨stepBrightness_reaches_aux t ht (((t : ℤ) - c).natAbs) c le_rfl hc,
   stepBrightness_invariant c t hc ht⟩

/-- Witness for C2 at the spec's scenario `current = 100`, `target = 180`. -/
theorem stepBrightness_reaches_no_overshoot_witness :
    (∃ n, (fun x => stepBrightness x 180)^[n] 100 = 180) ∧
    (∀ n, min 100 180 ≤ (fun x => stepBrightness x 180)^[n] 100 ∧
      (fun x => stepBrightness x 180)^[n] 100 ≤ max 100 180) :=
  stepBrightness_reaches_no_overshoot 100 180 (by decide) (by decide)

lemma minByte_pos (cfg : Config) : 1 ≤ minByte cfg := by
  simp only [minByte]
  split_ifs <;> omega

lemma minByte_le_255 (cfg : Config) : minByte cfg ≤ 255 := by
  have h := byteOfInt_le (Int.tdiv (cfg.minPercent * 255) 100)
  simp only [minByte]
  split_ifs <;> omega

lemma minByte_le_maxBriInt (cfg : Config) : (minByte cfg : ℤ) ≤ maxBriInt cfg := by
  simp only [maxBriInt]
  split_ifs <;> omega

lemma maxBriInt_le_255 (cfg : Config) (h0 : 0 ≤ cfg.maxPercent) (h1 : cfg.maxPercent ≤ 100) :
    maxBriInt cfg ≤ 255 := by
  have hM : Int.tdiv (cfg.maxPercent * 255) 100 ≤ 255 := by
    rw [Int.tdiv_eq_ediv (by positivity) (by norm_num)]
    omega
  have hm := minByte_le_255 cfg
  simp only [maxBriInt]
  split_ifs <;> omega

lemma maxByte_cast (cfg : Config) (h0 : 0 ≤ cfg.maxPercent) (h1 : cfg.maxPercent ≤ 100) :
    (maxByte cfg : ℤ) = maxBriInt cfg := by
  unfold maxByte
  refine byteOfInt_cast ?_ ?_
  · have := minByte_pos cfg
    have := minByte_le_maxBriInt cfg
    omega
  · have := maxBriInt_le_255 cfg h0 h1
    omega

lemma hiLux_gt (cfg : Config) : (cfg.minLux : ℝ) < hiLux cfg := by
  unfold hiLux
  split_ifs with h
  · linarith
  · push_neg at h
    exact h

lemma luxToBrightness_of_le (cfg : Config) {lux : ℝ} (h : lux ≤ (cfg.minLux : ℝ)) :
    luxToBrightness cfg lux = minByte cfg := by
  unfold luxToBrightness
  rw [if_pos h]

lemma luxToBrightness_of_ge (cfg : Config) {lux : ℝ} (h : hiLux cfg ≤ lux) :
    luxToBrightness cfg lux = maxByte cfg := by
  have hlt := hiLux_gt cfg
  unfold luxToBrightness
  rw [if_neg (by linarith), if_pos h]

lemma luxToBrightness_mid_eq (cfg : Config) (hv : ConfigValid cfg) {lux : ℝ}
    (h1 : (cfg.minLux : ℝ) < lux) (h2 : lux < hiLux cfg) :
    luxToBrightness cfg lux = minByte cfg +
      ⌊Real.sqrt ((lux - (cfg.minLux : ℝ)) / (hiLux cfg - (cfg.minLux : ℝ))) *
        ((maxBriInt cfg : ℝ) - (minByte cfg : ℝ))⌋₊ ∧
    ⌊Real.sqrt ((lux - (cfg.minLux : ℝ)) / (hiLux cfg - (cfg.minLux : ℝ))) *
        ((maxBriInt cfg : ℝ) - (minByte cfg : ℝ))⌋₊ ≤ (maxBriInt cfg - (minByte cfg : ℤ)).toNat := by
  obtain ⟨-, -, hP0, hP1, -, -, -, -, -⟩ := hv
  set m : ℕ := minByte cfg with hm
  set M : ℤ := maxBriInt cfg with hM
  have hmM : (m : ℤ) ≤ M := minByte_le_maxBriInt cfg
  have hM255 : M ≤ 255 := maxBriInt_le_255 cfg (by omega) hP1
  have hden : (0 : ℝ) < hiLux cfg - (cfg.minLux : ℝ) := by
    have := hiLux_gt cfg; linarith
  have hq1 : (lux - (cfg.minLux : ℝ)) / (hiLux cfg - (cfg.minLux : ℝ)) ≤ 1 := by
    rw [div_le_one hden]; linarith
  have hs1 : Real.sqrt ((lux - (cfg.minLux : ℝ)) / (hiLux cfg - (cfg.minLux : ℝ))) ≤ 1 :=
    Real.sqrt_le_one.mpr hq1
  have hr0 : (0 : ℝ) ≤ (M : ℝ) - (m : ℝ) := by
    have : ((m : ℤ) : ℝ) ≤ (M : ℝ) := by exact_mod_cast hmM
    push_cast at this ⊢
    linarith
  have hmul : Real.sqrt ((lux - (cfg.minLux : ℝ)) / (hiLux cfg - (cfg.minLux : ℝ))) *
      ((M : ℝ) - (m : ℝ)) ≤ (M : ℝ) - (m : ℝ) :=
    mul_le_of_le_one_left hr0 hs1
  have hcastr : (M : ℝ) - (m : ℝ) = (((M - (m : ℤ)).toNat : ℕ) : ℝ) := by
    have h : ((M - (m : ℤ)).toNat : ℤ) = M - (m : ℤ) := Int.toNat_of_nonneg (by omega)
    have h2 : (((M - (m : ℤ)).toNat : ℕ) : ℝ) = ((M - (m : ℤ) : ℤ) : ℝ) := by
      exact_mod_cast h
    rw [h2]
    push_cast
    ring
  have hfl : ⌊Real.sqrt ((lux - (cfg.minLux : ℝ)) / (hiLux cfg - (cfg.minLux : ℝ))) *
      ((M : ℝ) - (m : ℝ))⌋₊ ≤ (M - (m : ℤ)).toNat := by
    calc ⌊Real.sqrt ((lux - (cfg.minLux : ℝ)) / (hiLux cfg - (cfg.minLux : ℝ))) *
        ((M : ℝ) - (m : ℝ))⌋₊ ≤ ⌊(M : ℝ) - (m : ℝ)⌋₊ := Nat.floor_le_floor hmul
      _ = (M - (m : ℤ)).toNat := by rw [hcastr, Nat.floor_natCast]
  refine ⟨?_, hfl⟩
  unfold luxToBrightness
  rw [if_neg (by linarith), if_neg (by linarith)]
  rw [← hm, ← hM]
  have h0 : (0 : ℤ) ≤ (m : ℤ) +
      (⌊Real.sqrt ((lux - (cfg.minLux : ℝ)) / (hiLux cfg - (cfg.minLux : ℝ))) *
        ((M : ℝ) - (m : ℝ))⌋₊ : ℤ) := by positivity
  have h256 : (m : ℤ) +
      (⌊Real.sqrt ((lux - (cfg.minLux : ℝ)) / (hiLux cfg - (cfg.minLux : ℝ))) *
        ((M : ℝ) - (m : ℝ))⌋₊ : ℤ) < 256 := by omega
  have := byteOfInt_cast h0 h256
  omega

lemma maxBriInt_sub_nonneg (cfg : Config) :
    (0 : ℝ) ≤ (maxBriInt cfg : ℝ) - (minByte cfg : ℝ) := by
  have h := minByte_le_maxBriInt cfg
  have h' : (((minByte cfg : ℤ)) : ℝ) ≤ ((maxBriInt cfg : ℤ) : ℝ) := by exact_mod_cast h
  push_cast at h'
  linarith

lemma luxToBrightness_bounds (cfg : Config) (hv : ConfigValid cfg) (lux : ℝ) :
    minByte cfg ≤ luxToBrightness cfg lux ∧ luxToBrightness cfg lux ≤ maxByte cfg := by
  have hP0 := hv.2.2.1
  have hP1 := hv.2.2.2.1
  have hmM := minByte_le_maxBriInt cfg
  have hmax := maxByte_cast cfg (by omega) hP1
  by_cases hlo : lux ≤ (cfg.minLux : ℝ)
  · rw [luxToBrightness_of_le cfg hlo]
    exact ⟨le_rfl, by omega⟩
  · by_cases hhi : hiLux cfg ≤ lux
    · rw [luxToBrightness_of_ge cfg hhi]
      exact ⟨by omega, le_rfl⟩
    · push_neg at hlo hhi
      obtain ⟨heq, hle⟩ := luxToBrightness_mid_eq cfg hv hlo hhi
      rw [heq]
      omega

lemma luxToBrightness_monotone (cfg : Config) (hv : ConfigValid cfg) {x y : ℝ} (hxy : x ≤ y) :
    luxToBrightness cfg x ≤ luxToBrightness cfg y := by
  by_cases hx : x ≤ (cfg.minLux : ℝ)
  · rw [luxToBrightness_of_le cfg hx]
    exact (luxToBrightness_bounds cfg hv y).1
  · push_neg at hx
    have hy : (cfg.minLux : ℝ) < y := lt_of_lt_of_le hx hxy
    by_cases hyh : hiLux cfg ≤ y
    · rw [luxToBrightness_of_ge cfg hyh]
      exact (luxToBrightness_bounds cfg hv x).2
    · push_neg at hyh
      have hxh : x < hiLux cfg := lt_of_le_of_lt hxy hyh
      obtain ⟨hex, -⟩ := luxToBrightness_mid_eq cfg hv hx hxh
      obtain ⟨hey, -⟩ := luxToBrightness_mid_eq cfg hv hy hyh
      rw [hex, hey]
      have hden : (0 : ℝ) < hiLux cfg - (cfg.minLux : ℝ) := by
        have := hiLux_gt cfg; linarith
      have hq : (x - (cfg.minLux : ℝ)) / (hiLux cfg - (cfg.minLux : ℝ)) ≤
          (y - (cfg.minLux : ℝ)) / (hiLux cfg - (cfg.minLux : ℝ)) := by
        exact div_le_div_of_nonneg_right (by linarith) hden.le
      have hs := Real.sqrt_le_sqrt hq
      have hmul := mul_le_mul_of_nonneg_right hs (maxBriInt_sub_nonneg cfg)
      exact Nat.add_le_add_left (Nat.floor_le_floor hmul) _

/-- C1: for every configuration satisfying the post-load invariant,
`luxToBrightness` is monotonically non-decreasing in the lux argument, and
its value always lies in the inclusive byte range `[minByte, maxByte]`. -/
theorem luxToBrightness_monotone_bounded (cfg : Config) (hv : ConfigValid cfg) :
    (∀ x y : ℝ, x ≤ y → luxToBrightness cfg x ≤ luxToBrightness cfg y) ∧
    (∀ lux : ℝ, minByte cfg ≤ luxToBrightness cfg lux ∧
      luxToBrightness cfg lux ≤ maxByte cfg) :=
  ⟨fun _ _ hxy => luxToBrightness_monotone cfg hv hxy,
   fun lux => luxToBrightness_bounds cfg hv lux⟩

/-- Witness for C1 at the default configuration. -/
theorem luxToBrightness_monotone_bounded_witness :
    ConfigValid defaultConfig ∧
    ((∀ x y : ℝ, x ≤ y → luxToBrightness defaultConfig x ≤ luxToBrightness defaultConfig y) ∧
     (∀ lux : ℝ, minByte defaultConfig ≤ luxToBrightness defaultConfig lux ∧
        luxToBrightness defaultConfig lux ≤ maxByte defaultConfig)) :=
  ⟨by decide, luxToBrightness_monotone_bounded defaultConfig (by decide)⟩

/-- A parsed configuration section whose `Min Lux` (500) exceeds its
`Max Lux` (5); every field is in its individual range, so `readFromConfig`
keeps the swapped pair. -/
def rawSwapped : RawConfig :=
  { present := true, aktiv := some false, minPct := some 10, maxPct := some 100,
    minLuxV := some 500, maxLuxV := some 5 }

/-- The configuration produced by loading `rawSwapped`. -/
def swappedConfig : Config :=
  { enabled := false, minPercent := 10, maxPercent := 100, minLux := 500, maxLux := 5 }

/-- C3 counterexample: `swappedConfig` is reachable after config loading,
`lux = 100` is at least `maxLux = 5`, yet `luxToBrightness` returns the
minimum byte (25), not `maxByte` (255): the curve clamps against the
effective upper bound `minLux + 1 = 501`, not against `maxLux`. -/
theorem luxToBrightness_maxLux_cex :
    (readFromConfig rawSwapped defaultConfig 0).1 = swappedConfig ∧
    ConfigValid swappedConfig ∧
    (swappedConfig.maxLux : ℝ) ≤ 100 ∧
    luxToBrightness swappedConfig 100 = minByte swappedConfig ∧
    minByte swappedConfig ≠ maxByte swappedConfig := by
  refine ⟨by decide, by decide, by norm_num [swappedConfig], ?_, by decide⟩
  exact luxToBrightness_of_le swappedConfig (by norm_num [swappedConfig])

/-- C3 (amended): for every post-load configuration, `luxToBrightness`
returns `minByte` for `lux ≤ minLux`; it returns `maxByte` for
`lux ≥ maxLux` provided `minLux < maxLux` (when `maxLux ≤ minLux` the
effective upper bound is `minLux + 1` instead). -/
theorem luxToBrightness_clamp_regions (cfg : Config) (hv : ConfigValid cfg) (lux : ℝ) :
    (lux ≤ (cfg.minLux : ℝ) → luxToBrightness cfg lux = minByte cfg) ∧
    (cfg.minLux < cfg.maxLux → (cfg.maxLux : ℝ) ≤ lux →
      luxToBrightness cfg lux = maxByte cfg) := by
  refine ⟨fun h => luxToBrightness_of_le cfg h, fun hlt hle => ?_⟩
  apply luxToBrightness_of_ge
  have hcast : (cfg.minLux : ℝ) < (cfg.maxLux : ℝ) := by exact_mod_cast hlt
  unfold hiLux
  rw [if_neg (not_le.mpr hcast)]
  exact hle

/-- Witness for C3 (amended) at the default configuration, with
`lux = 3 ≤ minLux = 5` and `lux = 1000 ≥ maxLux = 500`. -/
theorem luxToBrightness_clamp_regions_witness :
    ConfigValid defaultConfig ∧
    ((3 : ℝ) ≤ (defaultConfig.minLux : ℝ) →
      luxToBrightness defaultConfig 3 = minByte defaultConfig) ∧
    (defaultConfig.minLux < defaultConfig.maxLux → (defaultConfig.maxLux : ℝ) ≤ 1000 →
      luxToBrightness defaultConfig 1000 = maxByte defaultConfig) :=
  ⟨by decide,
   (luxToBrightness_clamp_regions defaultConfig (by decide) 3).1,
   (luxToBrightness_clamp_regions defaultConfig (by decide) 1000).2⟩

/-- The percent-to-byte conversion as §4.2 of the spec words it (round to
nearest): `minByte = max(1, round(minBrightnessPercent * 255 / 100))`.
This follows the spec text, for comparison with `minByte` from the code. -/
def minByteSpec (cfg : Config) : ℤ := max 1 (round ((cfg.minPercent : ℚ) * 255 / 100))

/-- The spec-worded counterpart of `maxByte`:
`max(minByte, round(maxBrightnessPercent * 255 / 100))`. -/
def maxByteSpec (cfg : Config) : ℤ :=
  max (minByteSpec cfg) (round ((cfg.maxPercent : ℚ) * 255 / 100))

/-- C4 counterexample: at the default configuration (`minPercent = 10`,
so `10 * 255 / 100 = 25.5`) the code computes `minByte = 25` by truncating
integer division, while the claimed round-to-nearest formula gives 26. -/
theorem byte_bounds_round_cex :
    (minByte defaultConfig : ℤ) = 25 ∧ minByteSpec defaultConfig = 26 ∧
    (minByte defaultConfig : ℤ) ≠ minByteSpec defaultConfig := by
  have h : minByteSpec defaultConfig = 26 := by
    norm_num [minByteSpec, defaultConfig, round_eq]
  exact ⟨by decide, h, by rw [h]; decide⟩

lemma floor_pct (p : ℤ) : ⌊(p : ℚ) * 255 / 100⌋ = (p * 255) / 100 := by
  rw [show ((p : ℚ) * 255) = ((p * 255 : ℤ) : ℚ) by push_cast; ring,
    show ((100 : ℚ)) = ((100 : ℕ) : ℚ) by norm_num]
  exact Rat.floor_intCast_div_natCast _ _

/-- C4 (amended): the percent-to-byte bounds truncate rather than round to
nearest: for in-range percentages, `minByte = max(1, ⌊minPercent*255/100⌋)`
and `maxByte = max(minByte, ⌊maxPercent*255/100⌋)`. -/
theorem byte_bounds_truncate (cfg : Config)
    (h0 : 0 ≤ cfg.minPercent) (h1 : cfg.minPercent ≤ 100)
    (h2 : 0 ≤ cfg.maxPercent) (h3 : cfg.maxPercent ≤ 100) :
    (minByte cfg : ℤ) = max 1 ⌊(cfg.minPercent : ℚ) * 255 / 100⌋ ∧
    (maxByte cfg : ℤ) = max (minByte cfg : ℤ) ⌊(cfg.maxPercent : ℚ) * 255 / 100⌋ := by
  have hfmin := floor_pct cfg.minPercent
  have hfmax := floor_pct cfg.maxPercent
  have htmin : Int.tdiv (cfg.minPercent * 255) 100 = (cfg.minPercent * 255) / 100 :=
    Int.tdiv_eq_ediv (by positivity) (by norm_num)
  have htmax : Int.tdiv (cfg.maxPercent * 255) 100 = (cfg.maxPercent * 255) / 100 :=
    Int.tdiv_eq_ediv (by positivity) (by norm_num)
  have hbmin : (0 : ℤ) ≤ (cfg.minPercent * 255) / 100 ∧ (cfg.minPercent * 255) / 100 ≤ 255 := by
    omega
  have hcmin : (byteOfInt (Int.tdiv (cfg.minPercent * 255) 100) : ℤ) =
      (cfg.minPercent * 255) / 100 := by
    rw [htmin]
    exact byteOfInt_cast hbmin.1 (by omega)
  constructor
  · rw [hfmin]
    simp only [minByte]
    split_ifs <;> omega
  · rw [hfmax]
    rw [maxByte_cast cfg h2 h3]
    simp only [maxBriInt, minByte]
    split_ifs <;> omega

/-- Witness for C4 (amended) at the default configuration. -/
theorem byte_bounds_truncate_witness :
    (minByte defaultConfig : ℤ) = max 1 ⌊(defaultConfig.minPercent : ℚ) * 255 / 100⌋ ∧
    (maxByte defaultConfig : ℤ) =
      max (minByte defaultConfig : ℤ) ⌊(defaultConfig.maxPercent : ℚ) * 255 / 100⌋ :=
  byte_bounds_truncate defaultConfig (by decide) (by decide) (by decide) (by decide)

/-- C6: when the sample branch fires, a negative lux reading leaves every
controller field unchanged except the last-sample timestamp, which is
updated regardless of validity; a reading of `lux ≥ 0` is processed (it is
stored into `lastLux`). -/
theorem sampleStep_invalid_reading (cfg : Config) (now : ℕ) (lux : ℝ) (s : LoopState) :
    (lux < 0 → sampleStep cfg now lux s = { s with lastSensorRead := now }) ∧
    (0 ≤ lux → (sampleStep cfg now lux s).lastLux = lux ∧
      (sampleStep cfg now lux s).lastSensorRead = now) := by
  constructor
  · intro h
    unfold sampleStep
    rw [if_neg (not_le.mpr h)]
  · intro h
    constructor
    · simp only [sampleStep]
      rw [if_pos h]
      split_ifs <;> rfl
    · simp only [sampleStep]
      rw [if_pos h]
      split_ifs <;> rfl

/-- Witness for C6 with a failing reading `lux = -1` and a valid reading
`lux = 10`. -/
theorem sampleStep_invalid_reading_witness :
    ((-1 : ℝ) < 0 ∧
      sampleStep defaultConfig 7 (-1)
          { lastLux := 3, smoothedLux := 3, autoBriTarget := 128, autoBriCurrent := 128,
            lastSensorRead := 0, lastBriUpdate := 0, lastUiSync := 0, bri := 40,
            briOld := 0, briT := 0, briLast := 0, uiNotify := false } =
        { lastLux := 3, smoothedLux := 3, autoBriTarget := 128, autoBriCurrent := 128,
          lastSensorRead := 7, lastBriUpdate := 0, lastUiSync := 0, bri := 40,
          briOld := 0, briT := 0, briLast := 0, uiNotify := false }) ∧
    ((0 : ℝ) ≤ 10 ∧
      (sampleStep defaultConfig 7 10
          { lastLux := 3, smoothedLux := 3, autoBriTarget := 128, autoBriCurrent := 128,
            lastSensorRead := 0, lastBriUpdate := 0, lastUiSync := 0, bri := 40,
            briOld := 0, briT := 0, briLast := 0, uiNotify := false }).lastLux = 10) :=
  ⟨⟨by norm_num,
    (sampleStep_invalid_reading defaultConfig 7 (-1) _).1 (by norm_num)⟩,
   ⟨by norm_num,
    ((sampleStep_invalid_reading defaultConfig 7 10 _).2 (by norm_num)).1⟩⟩

/-- C9: whenever `strip.isUpdating()` reports a transition at the start of
a tick, the whole tick is a no-op: the state (including the sampler, EMA
and target fields) is returned unchanged. -/
theorem loop_updating_noop (cfg : Config) (sf : Bool) (inp : TickInput) (s : LoopState)
    (h : inp.isUpdating = true) : loop cfg sf inp s = s := by
  simp only [loop, h, if_true]

/-- Witness for C9 on a tick whose `isUpdating` flag is set. -/
theorem loop_updating_noop_witness :
    (TickInput.mk 600 true false 10).isUpdating = true ∧
    loop defaultConfig true (TickInput.mk 600 true false 10)
        { lastLux := 3, smoothedLux := 3, autoBriTarget := 128, autoBriCurrent := 128,
          lastSensorRead := 0, lastBriUpdate := 0, lastUiSync := 0, bri := 40,
          briOld := 0, briT := 0, briLast := 0, uiNotify := false } =
      { lastLux := 3, smoothedLux := 3, autoBriTarget := 128, autoBriCurrent := 128,
        lastSensorRead := 0, lastBriUpdate := 0, lastUiSync := 0, bri := 40,
        briOld := 0, briT := 0, briLast := 0, uiNotify := false } :=
  ⟨rfl, loop_updating_noop defaultConfig true _ _ rfl⟩

lemma loop_no_sensor (cfg : Config) (inp : TickInput) (s : LoopState) :
    loop cfg false inp s = s := by
  simp only [loop]
  split_ifs <;> simp_all

/-- C8: if the sensor was not found at startup, every subsequent tick —
whatever the elapsed time, the enabled flag, or the inputs — leaves the
controller state and the brightness sink untouched. -/
theorem loop_sensor_absent_noop (cfg : Config) (inps : List TickInput) (s : LoopState) :
    inps.foldl (fun st inp => loop cfg false inp st) s = s := by
  induction inps with
  | nil => rfl
  | cons i is ih => rw [List.foldl_cons, loop_no_sensor, ih]

/-- A configuration equal to the defaults but with the feature enabled. -/
def enabledConfig : Config :=
  { enabled := true, minPercent := 10, maxPercent := 100, minLux := 5, maxLux := 500 }

/-- A concrete controller state used to instantiate the loop theorems:
smoothing is at its sentinel and the target (24) is within the deadband of
the byte mapped for a dark room (25). -/
def testState : LoopState :=
  { lastLux := -1, smoothedLux := -1, autoBriTarget := 24, autoBriCurrent := 128,
    lastSensorRead := 0, lastBriUpdate := 0, lastUiSync := 0, bri := 40,
    briOld := 0, briT := 0, briLast := 0, uiNotify := false }

/-- C10: on the first valid reading after the sentinel reset
(`smoothedLux < 0`), the EMA is seeded directly with the raw lux value and
`autoBriCurrent` is resynchronised to the live brightness `bri`, but the
target is still subject to the same `> 3` deadband against its previous
value, so a stale target within 3 of the newly mapped byte is retained. -/
theorem sampleStep_first_reading (cfg : Config) (now : ℕ) (lux : ℝ) (s : LoopState)
    (hlux : 0 ≤ lux) (hs : s.smoothedLux < 0) :
    (sampleStep cfg now lux s).smoothedLux = lux ∧
    (sampleStep cfg now lux s).autoBriCurrent = s.bri ∧
    (sampleStep cfg now lux s).autoBriTarget =
      (if 3 < |(luxToBrightness cfg lux : ℤ) - (s.autoBriTarget : ℤ)|
       then luxToBrightness cfg lux else s.autoBriTarget) := by
  have hs' : ({ s with lastSensorRead := now, lastLux := lux } : LoopState).smoothedLux < 0 := hs
  refine ⟨?_, ?_, ?_⟩ <;>
    · simp only [sampleStep]
      rw [if_pos hlux, if_pos hs']
      dsimp only
      split_ifs <;> rfl

/-- Witness for C10: first reading `lux = 2` maps to byte 25, within the
deadband of the stale target 24, which is therefore retained while the EMA
is seeded and `autoBriCurrent` resyncs to `bri`. -/
theorem sampleStep_first_reading_witness :
    (0 : ℝ) ≤ 2 ∧ testState.smoothedLux < 0 ∧
    (sampleStep enabledConfig 7 2 testState).smoothedLux = 2 ∧
    (sampleStep enabledConfig 7 2 testState).autoBriCurrent = testState.bri ∧
    (sampleStep enabledConfig 7 2 testState).autoBriTarget = 24 := by
  have h := sampleStep_first_reading enabledConfig 7 2 testState (by norm_num)
    (by norm_num [testState])
  have hx : luxToBrightness enabledConfig 2 = 25 := by
    rw [luxToBrightness_of_le enabledConfig (by norm_num [enabledConfig])]
    decide
  refine ⟨by norm_num, by norm_num [testState], h.1, h.2.1, ?_⟩
  rw [h.2.2, hx]
  norm_num [testState]

lemma briStepPhase_target (now : ℕ) (s : LoopState) :
    (briStepPhase now s).autoBriTarget = s.autoBriTarget := by
  simp only [briStepPhase]
  split_ifs <;> rfl

lemma sampleStep_target (cfg : Config) (now : ℕ) (lux : ℝ) (s : LoopState) (hlux : 0 ≤ lux) :
    (sampleStep cfg now lux s).autoBriTarget =
      (if 3 < |(luxToBrightness cfg (if s.smoothedLux < 0 then lux
            else EMA_ALPHA * lux + (1 - EMA_ALPHA) * s.smoothedLux) : ℤ) -
          (s.autoBriTarget : ℤ)|
       then luxToBrightness cfg (if s.smoothedLux < 0 then lux
            else EMA_ALPHA * lux + (1 - EMA_ALPHA) * s.smoothedLux)
       else s.autoBriTarget) := by
  simp only [sampleStep]
  rw [if_pos hlux]
  split_ifs <;> rfl

/-- C5: on a tick where the sample branch fires with a valid reading, the
freshly mapped byte replaces `autoBriTarget` exactly when it differs from
the previous target by more than 3; within the deadband the previous
target is kept (the step phase of the same tick never touches the target). -/
theorem loop_target_deadband (cfg : Config) (inp : TickInput) (s : LoopState)
    (hupd : inp.isUpdating = false) (hen : cfg.enabled = true)
    (helapsed : SENSOR_READ_INTERVAL ≤ wrapSub inp.now s.lastSensorRead)
    (hlux : 0 ≤ inp.lux) :
    (3 < |(luxToBrightness cfg (if s.smoothedLux < 0 then inp.lux
          else EMA_ALPHA * inp.lux + (1 - EMA_ALPHA) * s.smoothedLux) : ℤ) -
        (s.autoBriTarget : ℤ)| →
      (loop cfg true inp s).autoBriTarget =
        luxToBrightness cfg (if s.smoothedLux < 0 then inp.lux
          else EMA_ALPHA * inp.lux + (1 - EMA_ALPHA) * s.smoothedLux)) ∧
    (|(luxToBrightness cfg (if s.smoothedLux < 0 then inp.lux
          else EMA_ALPHA * inp.lux + (1 - EMA_ALPHA) * s.smoothedLux) : ℤ) -
        (s.autoBriTarget : ℤ)| ≤ 3 →
      (loop cfg true inp s).autoBriTarget = s.autoBriTarget) := by
  have hl : (loop cfg true inp s).autoBriTarget =
      (sampleStep cfg inp.now inp.lux s).autoBriTarget := by
    simp only [loop]
    have hc1 : cfg.enabled = true ∧ True ∧
        SENSOR_READ_INTERVAL ≤ wrapSub inp.now s.lastSensorRead := ⟨hen, trivial, helapsed⟩
    rw [if_neg (by simp [hupd]), if_pos hc1]
    split_ifs with h
    · exact briStepPhase_target _ _
    · rfl
  rw [hl, sampleStep_target cfg inp.now inp.lux s hlux]
  constructor
  · intro h3
    rw [if_pos h3]
  · intro h3
    rw [if_neg (not_lt.mpr h3)]

/-- Witness for C5: an enabled tick at `now = 600` (sampler due) with
`lux = 10`, instantiating both deadband directions. -/
theorem loop_target_deadband_witness :
    (TickInput.mk 600 false false 10).isUpdating = false ∧
    enabledConfig.enabled = true ∧
    SENSOR_READ_INTERVAL ≤ wrapSub 600 testState.lastSensorRead ∧
    (0 : ℝ) ≤ 10 ∧
    ((3 < |(luxToBrightness enabledConfig (if testState.smoothedLux < 0 then 10
          else EMA_ALPHA * 10 + (1 - EMA_ALPHA) * testState.smoothedLux) : ℤ) -
        (testState.autoBriTarget : ℤ)| →
      (loop enabledConfig true (TickInput.mk 600 false false 10) testState).autoBriTarget =
        luxToBrightness enabledConfig (if testState.smoothedLux < 0 then 10
          else EMA_ALPHA * 10 + (1 - EMA_ALPHA) * testState.smoothedLux)) ∧
    (|(luxToBrightness enabledConfig (if testState.smoothedLux < 0 then 10
          else EMA_ALPHA * 10 + (1 - EMA_ALPHA) * testState.smoothedLux) : ℤ) -
        (testState.autoBriTarget : ℤ)| ≤ 3 →
      (loop enabledConfig true (TickInput.mk 600 false false 10) testState).autoBriTarget =
        testState.autoBriTarget)) :=
  ⟨rfl, rfl, by decide, by norm_num,
   loop_target_deadband enabledConfig (TickInput.mk 600 false false 10) testState
     rfl rfl (by decide) (by norm_num)⟩

/-- C7 counterexample: loading `rawSwapped` (every field present and in its
individual range) leaves `minLux = 500`, `maxLux = 5`: `readFromConfig`
never enforces `maxLux > minLux`, contrary to the claimed §3 constraint. -/
theorem readFromConfig_maxLux_cex :
    (readFromConfig rawSwapped defaultConfig 0).1.minLux = 500 ∧
    (readFromConfig rawSwapped defaultConfig 0).1.maxLux = 5 ∧
    ¬ ((readFromConfig rawSwapped defaultConfig 0).1.minLux <
        (readFromConfig rawSwapped defaultConfig 0).1.maxLux) :=
  ⟨by decide, by decide, by decide⟩

/-- C7 (amended): for every parsed input and prior state, after
`readFromConfig` the stored fields satisfy all the individual §3 ranges and
`minPercent ≤ maxPercent` (but not `minLux < maxLux`, which is never
enforced); `smoothedLux` is reset to the sentinel `-1` whenever the loaded
`enabled` flag is false; and the returned completeness flag is the
conjunction of the section being present and every field parsing. -/
theorem readFromConfig_clamps (raw : RawConfig) (cfg : Config) (smoothed : ℝ) :
    0 ≤ (readFromConfig raw cfg smoothed).1.minPercent ∧
    (readFromConfig raw cfg smoothed).1.minPercent ≤ 100 ∧
    1 ≤ (readFromConfig raw cfg smoothed).1.maxPercent ∧
    (readFromConfig raw cfg smoothed).1.maxPercent ≤ 100 ∧
    (readFromConfig raw cfg smoothed).1.minPercent ≤
      (readFromConfig raw cfg smoothed).1.maxPercent ∧
    0 ≤ (readFromConfig raw cfg smoothed).1.minLux ∧
    (readFromConfig raw cfg smoothed).1.minLux ≤ 65535 ∧
    1 ≤ (readFromConfig raw cfg smoothed).1.maxLux ∧
    (readFromConfig raw cfg smoothed).1.maxLux ≤ 65535 ∧
    ((readFromConfig raw cfg smoothed).1.enabled = false →
      (readFromConfig raw cfg smoothed).2.1 = -1) ∧
    (readFromConfig raw cfg smoothed).2.2 =
      (raw.present && raw.aktiv.isSome && raw.minPct.isSome && raw.maxPct.isSome &&
        raw.minLuxV.isSome && raw.maxLuxV.isSome) := by
  simp only [readFromConfig]
  refine ⟨?_, ?_, ?_, ?_, ?_, ?_, ?_, ?_, ?_, ?_, trivial⟩
  · split_ifs <;> omega
  · split_ifs <;> omega
  · split_ifs <;> omega
  · split_ifs <;> omega
  · split_ifs <;> omega
  · split_ifs <;> omega
  · split_ifs <;> omega
  · split_ifs <;> omega
  · split_ifs <;> omega
  · intro h
    simp [h]

/-- Witness for C7 (amended) at the swapped-lux raw input. -/
theorem readFromConfig_clamps_witness :
    0 ≤ (readFromConfig rawSwapped defaultConfig 0).1.minPercent ∧
    (readFromConfig rawSwapped defaultConfig 0).1.minPercent ≤ 100 ∧
    1 ≤ (readFromConfig rawSwapped defaultConfig 0).1.maxPercent ∧
    (readFromConfig rawSwapped defaultConfig 0).1.maxPercent ≤ 100 ∧
    (readFromConfig rawSwapped defaultConfig 0).1.minPercent ≤
      (readFromConfig rawSwapped defaultConfig 0).1.maxPercent ∧
    0 ≤ (readFromConfig rawSwapped defaultConfig 0).1.minLux ∧
    (readFromConfig rawSwapped defaultConfig 0).1.minLux ≤ 65535 ∧
    1 ≤ (readFromConfig rawSwapped defaultConfig 0).1.maxLux ∧
    (readFromConfig rawSwapped defaultConfig 0).1.maxLux ≤ 65535 ∧
    ((readFromConfig rawSwapped defaultConfig 0).1.enabled = false →
      (readFromConfig rawSwapped defaultConfig 0).2.1 = -1) ∧
    (readFromConfig rawSwapped defaultConfig 0).2.2 =
      (rawSwapped.present && rawSwapped.aktiv.isSome && rawSwapped.minPct.isSome &&
        rawSwapped.maxPct.isSome && rawSwapped.minLuxV.isSome && rawSwapped.maxLuxV.isSome) :=
  readFromConfig_clamps rawSwapped defaultConfig 0
